import Mathlib

set_option maxRecDepth 8000

/-!
Verification development for the smallsh command interpreter (src/smallsh.c).
C strings are modelled as `List Char` (buffer contents before the terminating
null byte; a null byte written by strtok appears as `nulChar` inside the list).
Process-level effects (waitpid, write, fork, open, execvp) are modelled as
explicit actions or boolean oracles. Definitions come first, theorems follow.
-/

/-- Terminating null character of a C string buffer. -/
def nulChar : Char := Char.ofNat 0

/-- Model of strlen: number of buffer characters before the first null byte. -/
def cstrlen (s : List Char) : Nat := (s.takeWhile (fun c => c != nulChar)).length

/-- Model of a first strtok call `strtok(s, d)` on a delimiter `d` when only
the returned token matters: skip leading delimiter characters, then return the
maximal run of non-delimiter characters, or NULL (`none`) if only delimiters
remain (smallsh.c lines 440, 500 and 513 use this to cut a trailing newline). -/
def strtokFirst (s : List Char) (d : Char) : Option (List Char) :=
  let t := (s.dropWhile (fun c => c == d)).takeWhile (fun c => c != d)
  if t = [] then none else some t

/-- Observable actions performed by the SIGTSTP handler. `writeStdout` is the
raw unbuffered `write(STDOUT_FILENO, message, len)` call, as opposed to the
buffered printf path used elsewhere. -/
inductive HandlerAction where
  | waitFor (pid : Int)
  | writeStdout (message : String) (len : Nat)
deriving DecidableEq

/-- Message written by `catchSIGTSTP` when the flag turns on (line 73). -/
def enteringModeMsg : String := "\nEntering foreground-only mode (& is now ignored)\n"

/-- Message written by `catchSIGTSTP` when the flag turns off (line 66). -/
def exitingModeMsg : String := "\nExiting foreground-only mode\n"

/-- Model of `catchSIGTSTP` (smallsh.c lines 59-77): given the current value of
the global `turnOffBackground` flag and the recorded `currentForegroundPID`,
return the new flag value and the ordered list of actions the handler performs:
first `waitpid(currentForegroundPID, ...)`, then one raw write of a fixed
message with the literal byte counts 30 and 50 from the source. -/
def catchSIGTSTP (turnOffBackground : Bool) (currentForegroundPID : Int) :
    Bool × List HandlerAction :=
  if turnOffBackground then
    (false, [HandlerAction.waitFor currentForegroundPID,
             HandlerAction.writeStdout exitingModeMsg 30])
  else
    (true, [HandlerAction.waitFor currentForegroundPID,
            HandlerAction.writeStdout enteringModeMsg 50])

/-- Model of the directory string handed to `chdir` by the one-argument cd
built-in (smallsh.c lines 489-522): an argument starting with '/' is appended
to the HOME environment value, any other argument is appended to the current
working directory plus "/"; in both cases the result is cut at the first
newline via strtok. -/
def cdOneArgTarget (home cwd arg : List Char) : Option (List Char) :=
  if arg.head? = some '/' then strtokFirst (home ++ arg) '\n'
  else strtokFirst (cwd ++ '/' :: arg) '\n'

/-- Internal state of strtok: the (mutable) buffer and the saved scan index. -/
structure TokState where
  buf : List Char
  save : Nat
deriving DecidableEq

/-- Model of one strtok call on delimiter `d`: skip leading delimiters; if the
terminator (or buffer end) is reached return NULL, otherwise return the maximal
run of non-delimiter non-null characters, overwriting the delimiter that ends
it (if any) with a null byte and saving the position after it. -/
def strtokStep (ts : TokState) (d : Char) : Option (List Char) × TokState :=
  let rest := ts.buf.drop ts.save
  let skipped := (rest.takeWhile (fun c => c == d)).length
  let p := ts.save + skipped
  let rest2 := rest.drop skipped
  match rest2.head? with
  | none => (none, { ts with save := p })
  | some c =>
    if c = nulChar then (none, { ts with save := p })
    else
      let tok := rest2.takeWhile (fun c => c != d && c != nulChar)
      let q := p + tok.length
      let rest3 := rest2.drop tok.length
      match rest3.head? with
      | some c2 =>
        if c2 = d then (some tok, { buf := ts.buf.set q nulChar, save := q + 1 })
        else (some tok, { ts with save := q })
      | none => (some tok, { ts with save := q })

/-- Loop state of `dollarsToPID`: the scanned buffer (mutated in place by
strtok), the `correctedString` accumulator, the `stringNeededCorrecting` flag,
and a flag recording that `strcat(correctedString, NULL)` was reached, which is
undefined behaviour (a crash) in the C source. -/
structure DollarsState where
  buf : List Char
  corrected : List Char
  needed : Bool
  crashed : Bool
deriving DecidableEq

/-- Body executed by `dollarsToPID` when the scan finds "$$" at the current
position (smallsh.c lines 251-268): `strtok(inputString, "$")` restarted at the
buffer start, the prefix token and the pid string appended to the accumulator,
then `strtok(NULL, "$")` appends the next token if it is not NULL. A NULL
first token is passed to strcat, i.e. a crash. -/
def dollarsStepBody (st : DollarsState) (pid : List Char) : DollarsState :=
  let res1 := strtokStep { buf := st.buf, save := 0 } '$'
  match res1.1 with
  | none => { st with buf := res1.2.buf, crashed := true }
  | some t =>
    let c1 := st.corrected ++ t ++ pid
    let res2 := strtokStep res1.2 '$'
    let c2 := c1 ++ res2.1.getD []
    { buf := res2.2.buf, corrected := c2, needed := true, crashed := st.crashed }

/-- Scanning loop of `dollarsToPID` (smallsh.c lines 249-270): position runs
while it is below strlen of the current (mutated) buffer; a "$$" at the current
position triggers the strtok body. Fuel bounds the iteration count; buffer
length never grows, so `length + 1` fuel is enough. -/
def dollarsLoop (pid : List Char) : Nat → Nat → DollarsState → DollarsState
  | 0, _, st => st
  | fuel + 1, pos, st =>
    if st.crashed then st
    else if pos < cstrlen st.buf then
      if st.buf[pos]? = some '$' ∧ pos + 1 < cstrlen st.buf ∧ st.buf[pos + 1]? = some '$' then
        dollarsLoop pid fuel (pos + 1) (dollarsStepBody st pid)
      else dollarsLoop pid fuel (pos + 1) st
    else st

/-- Model of `dollarsToPID` (smallsh.c lines 232-282), with the shell pid
already rendered in decimal as `pid`. Returns `none` when the C code reaches
undefined behaviour (strcat of a NULL token); otherwise returns the corrected
string if any correction fired, else the input unchanged. -/
def dollarsToPID (inputString pid : List Char) : Option (List Char) :=
  let st := dollarsLoop pid (inputString.length + 1) 0
    { buf := inputString, corrected := [], needed := false, crashed := false }
  if st.crashed then none
  else if st.needed then some st.corrected
  else some inputString

/-- Model of the full strtok tokenization loop on a single delimiter (smallsh.c
lines 452-469): the list of maximal nonempty runs of non-delimiter characters. -/
def tokenizeAux (d : Char) : Nat → List Char → List (List Char)
  | 0, _ => []
  | fuel + 1, s =>
    let rest := s.dropWhile (fun c => c == d)
    match rest with
    | [] => []
    | _ :: _ =>
      let t := rest.takeWhile (fun c => c != d)
      t :: tokenizeAux d fuel (rest.drop t.length)

/-- Tokenize a line on spaces, as the argument-array fill loop does. -/
def tokenize (s : List Char) (d : Char) : List (List Char) := tokenizeAux d s.length s

/-- Model of the per-line front end of `main` (smallsh.c lines 440-469): strip
the trailing newline with strtok (NULL means the dispatch step is skipped),
expand "$$" via `dollarsToPID`, then split the result on spaces into the token
sequence that fills `argumentArray`. -/
def lineTokens (pid line : List Char) : Option (List (List Char)) :=
  match strtokFirst line '\n' with
  | none => none
  | some fixed =>
    match dollarsToPID fixed pid with
    | none => none
    | some s => some (tokenize s ' ')

/-- The background job table: the 200-slot pid array `backgroundPIDs` and the
`nextOpenPosition` insertion index. -/
structure JobTable where
  table : List Int
  next : Nat
deriving DecidableEq

/-- Initial job table (smallsh.c lines 344-351): every slot holds the bogus
value -5 and insertion starts at position 0. -/
def initJobTable : JobTable := { table := List.replicate 200 (-5), next := 0 }

/-- Registering one background pid (smallsh.c lines 597-607): store it at
`nextOpenPosition`, then advance the position, wrapping 199 back to 0. -/
def registerBG (st : JobTable) (pid : Int) : JobTable :=
  { table := st.table.set st.next pid,
    next := if st.next = 199 then 0 else st.next + 1 }

/-- Register a whole sequence of background pids, in order. -/
def registerAll (st : JobTable) (ps : List Int) : JobTable := ps.foldl registerBG st

/-- Pids reported by one reaping pass (smallsh.c lines 389-417): the scan
visits every slot, skips the bogus value -5, and reports a completion exactly
for those occupied slots whose non-blocking waitpid says the process finished,
which the oracle `done` models. -/
def reapReported (st : JobTable) (done : Int → Bool) : List Int :=
  st.table.filter (fun p => p != -5 && done p)

/-- Table state after one reaping pass: each reported slot is reset to -5. -/
def reapPass (st : JobTable) (done : Int → Bool) : JobTable :=
  { st with table := st.table.map (fun p => if p != -5 && done p then -5 else p) }

/-- Number of completions reaped (and reported) by one reaping pass. -/
def reapCount (st : JobTable) (done : Int → Bool) : Nat := (reapReported st done).length

/-- Number of occupied (non minus-five) slots of the job table. -/
def occupiedSlots (st : JobTable) : Nat := (st.table.filter (fun p => p != -5)).length

/-- Concrete pid sequence 1..201 used to instantiate the job-table theorems. -/
def c2ps : List Int := (List.range 201).map (fun i => (i : Int) + 1)

/-- One interpreter-loop event that touches the job table: a background spawn
that registers the child pid (smallsh.c lines 594-608), or one reaping pass
over the table whose completion oracle is `done` (lines 389-417). Built-ins
and foreground commands leave the table unchanged and need no event. -/
inductive ShellEvent where
  | spawnBG (pid : Int)
  | reapPassEv (done : Int → Bool)

/-- Job table together with counters of background spawns issued and
completions reaped across a run of the interpreter loop. -/
structure LoopStats where
  st : JobTable
  spawned : Nat
  reaped : Nat
deriving DecidableEq

/-- Effect of one loop event on the job table and the two counters. -/
def stepLoop (acc : LoopStats) (e : ShellEvent) : LoopStats :=
  match e with
  | ShellEvent.spawnBG p =>
    { st := registerBG acc.st p, spawned := acc.spawned + 1, reaped := acc.reaped }
  | ShellEvent.reapPassEv d =>
    { st := reapPass acc.st d, spawned := acc.spawned,
      reaped := acc.reaped + reapCount acc.st d }

/-- Run a sequence of loop events from a given accumulated state. -/
def runFrom (acc : LoopStats) (es : List ShellEvent) : LoopStats := es.foldl stepLoop acc

/-- Initial accumulated state: fresh table, no spawns, no reaps. -/
def initLoopStats : LoopStats := { st := initJobTable, spawned := 0, reaped := 0 }

/-- Run a sequence of loop events from the initial interpreter state. -/
def runLoop (es : List ShellEvent) : LoopStats := runFrom initLoopStats es

/-- Checks that along a trace every registration stores a real pid (not the
sentinel -5) into a free slot, i.e. the wraparound of `nextOpenPosition` never
lands on a slot still holding an unreaped identifier. -/
def traceOk : JobTable → List ShellEvent → Bool
  | _, [] => true
  | st, ShellEvent.spawnBG p :: es =>
    (p != -5 && (st.table[st.next]? == some (-5))) && traceOk (registerBG st p) es
  | st, ShellEvent.reapPassEv d :: es => traceOk (reapPass st d) es

/-- Concrete event trace of 201 background spawns with pids 1..201. -/
def c3spawns : List ShellEvent :=
  (List.range 201).map (fun i => ShellEvent.spawnBG ((i : Int) + 1))

/-- Concrete small event trace: two spawns, then a reap of the first pid. -/
def c3smallTrace : List ShellEvent :=
  [ShellEvent.spawnBG 7, ShellEvent.spawnBG 9, ShellEvent.reapPassEv (fun p => p == 7)]

/-- Oracles for the system calls made in the child: whether opening a path
read-only succeeds, whether opening it write/create/truncate succeeds, and
whether execvp can resolve and start the program. -/
structure SysEnv where
  openRead : String → Bool
  openWrite : String → Bool
  execvpOk : String → Bool

/-- Environment in which every open and every execvp succeeds. -/
def envAllOk : SysEnv :=
  { openRead := fun _ => true, openWrite := fun _ => true, execvpOk := fun _ => true }

/-- Entry `i` of the argument array, `none` standing for a NULL pointer (out
of range also reads as NULL). -/
def getS (a : List (Option String)) (i : Nat) : Option String := (a[i]?).bind id

/-- One redirection pair check of `tryToRunCommand` (smallsh.c lines 135-156
with the operator at `lastIndex-1` and the filename at `lastIndex`, lines
162-183 with them at `lastIndex-3` and `lastIndex-2`): if entry `i` is the
literal "<" (or ">"), open entry `i+1` for input (output); an open failure
prints the corresponding message and the child returns -1 before exec; on
success both entries are nulled out of the array and the path is recorded. -/
def pairCheck (env : SysEnv) (a : List (Option String)) (i : Nat) :
    Except String (List (Option String) × Option String × Option String) :=
  if getS a i = some "<" then
    let f := (getS a (i + 1)).getD ""
    if env.openRead f then Except.ok ((a.set (i + 1) none).set i none, some f, none)
    else Except.error ("cannot open " ++ f ++ " for input\n")
  else if getS a i = some ">" then
    let f := (getS a (i + 1)).getD ""
    if env.openWrite f then Except.ok ((a.set (i + 1) none).set i none, none, some f)
    else Except.error ("cannot open " ++ f ++ " for output\n")
  else Except.ok (a, none, none)

/-- The two trailing redirection checks of `tryToRunCommand` run in order
(first the pair at `lastIndex-1`/`lastIndex`, then, independently, the pair at
`lastIndex-3`/`lastIndex-2`), with the guards `lastIndex >= 1` and
`lastIndex >= 3` from the source. The effective recorded path is the second
pair's when both pairs name the same direction, because its dup2 runs last. -/
def redirPhase (env : SysEnv) (a1 : List (Option String)) (last : Nat) :
    Except String (List (Option String) × Option String × Option String) :=
  match (if 1 ≤ last then pairCheck env a1 (last - 1) else Except.ok (a1, none, none)) with
  | Except.error m => Except.error m
  | Except.ok (a2, in1, out1) =>
    match (if 3 ≤ last then pairCheck env a2 (last - 3) else Except.ok (a2, none, none)) with
    | Except.error m => Except.error m
    | Except.ok (a3, in2, out2) => Except.ok (a3, in2 <|> in1, out2 <|> out1)

/-- Result of the child running `tryToRunCommand`: an open failure before exec
(message printed, child returns -1 and then exits 1), an exec failure (message
printed, with the final argument array and recorded redirection paths), or a
successful exec carrying the same data. -/
inductive ChildResult where
  | openFail (message : String)
  | execFail (message : String) (argv : List (Option String))
      (inputPath outputPath : Option String)
  | execed (argv : List (Option String)) (inputPath outputPath : Option String)
deriving DecidableEq

/-- Model of `tryToRunCommand` (smallsh.c lines 96-214): find the last
occupied index, drop the trailing "&" when called for a background command,
run the two redirection pair checks, point unredirected background stdin and
stdout at /dev/null, then call execvp on entry 0 of the array. -/
def tryToRunCommand (env : SysEnv) (args0 : List String) (isBackground : Bool) :
    ChildResult :=
  let a0 : List (Option String) := args0.map some
  let last0 := args0.length - 1
  let a1 := if isBackground then a0.set last0 none else a0
  let last := if isBackground then last0 - 1 else last0
  match redirPhase env a1 last with
  | Except.error m => ChildResult.openFail m
  | Except.ok (a3, inP, outP) =>
    if isBackground ∧ inP = none ∧ env.openRead "/dev/null" = false then
      ChildResult.openFail "cannot open /dev/null for input\n"
    else if isBackground ∧ outP = none ∧ env.openWrite "/dev/null" = false then
      ChildResult.openFail "cannot open /dev/null for output\n"
    else
      let prog := (getS a3 0).getD ""
      if env.execvpOk prog then ChildResult.execed a3 inP outP
      else ChildResult.execFail (prog ++ ": no such file or directory\n") a3 inP outP

/-- Final argument array (with NULL holes) of a child result. -/
def redirArgv : ChildResult → List (Option String)
  | ChildResult.openFail _ => []
  | ChildResult.execFail _ a _ _ => a
  | ChildResult.execed a _ _ => a

/-- Whether the child reached the execvp call. -/
def execAttempted : ChildResult → Bool
  | ChildResult.openFail _ => false
  | _ => true

/-- Exit status of the child process: `exit(1)` follows every -1 return of
`tryToRunCommand` (smallsh.c lines 591 and 633); a successful exec never
returns, so the eventual status belongs to the launched program. -/
def childExitStatus : ChildResult → Option Nat
  | ChildResult.execed _ _ _ => none
  | _ => some 1

/-- Outcome of the dispatch step for a non-built-in command (smallsh.c lines
554-660): whether the command was sent down the background branch, whether the
parent prints the background-pid message instead of waiting, and the argument
vector as it stands at the fork. -/
structure DispatchResult where
  background : Bool
  printsBgPidMsg : Bool
  parentWaits : Bool
  argvAtFork : List String
deriving DecidableEq

/-- Model of the dispatch decision (smallsh.c lines 567-610): in
foreground-only mode a trailing "&" is first removed; then, whatever mode, if
the (possibly shortened) last token is "&" the command forks in background
mode (parent prints the pid and does not wait), else in foreground mode. -/
def dispatchCommand (args : List String) (turnOffBackground : Bool) : DispatchResult :=
  let args1 := if turnOffBackground ∧ args.getLast? = some "&" then args.dropLast else args
  if args1.getLast? = some "&" then
    { background := true, printsBgPidMsg := true, parentWaits := false, argvAtFork := args1 }
  else
    { background := false, printsBgPidMsg := false, parentWaits := true, argvAtFork := args1 }

/-- Model of the interpreter loop at the granularity claim C7 needs (smallsh.c
lines 379-692, with the SIGTSTP toggle never delivered): each command line is
already tokenized; "exit" ends the loop and `main` returns 0 after killing the
remaining background children; cd, status and comment lines fork nothing;
every other command forks, and a fork failure makes the interpreter perror the
matching message and call exit(1). The oracle `forkOk` says whether the k-th
fork succeeds. Running out of input gives no exit (the real loop blocks). -/
def runShellLoop (forkOk : Nat → Bool) : List (List String) → Nat → List String × Option Nat
  | [], _ => ([], none)
  | c :: rest, k =>
    match c.head? with
    | none => runShellLoop forkOk rest k
    | some w =>
      if w = "exit" then ([], some 0)
      else if w = "cd" ∨ w.toList.head? = some '#' ∨ w = "status" then
        runShellLoop forkOk rest k
      else if forkOk k = true then runShellLoop forkOk rest (k + 1)
      else if c.getLast? = some "&" then
        (["Major problem creating background child!\n"], some 1)
      else (["Major problem creating child!\n"], some 1)

/-- Concrete environment for the error-path witnesses: every read-open fails,
write-opens succeed, every execvp fails. -/
def envC6 : SysEnv :=
  { openRead := fun _ => false, openWrite := fun _ => true, execvpOk := fun _ => false }

-- THEOREMS

lemma strtokFirst_of_no_delim (s : List Char) (d : Char)
    (hne : s ≠ []) (hd : ∀ c ∈ s, c ≠ d) : strtokFirst s d = some s := by
  have hdrop : s.dropWhile (fun c => c == d) = s := by
    rw [List.dropWhile_eq_self_iff]
    intro hl
    simpa using hd (s.get ⟨0, hl⟩) (s.get_mem _ _)
  have htake : s.takeWhile (fun c => c != d) = s := by
    rw [List.takeWhile_eq_self_iff]
    intro x hx
    simpa using hd x hx
  unfold strtokFirst
  rw [hdrop, htake, if_neg hne]

/-- Claim C9: for every `cd` invocation with a single argument beginning with
'/', the directory passed to `chdir` is the HOME value concatenated with the
given path (and differs from the given path whenever HOME is nonempty); only
arguments not beginning with '/' are resolved against the current working
directory. Newlines do not occur in command-line tokens or in HOME/cwd. -/
theorem c9_cd_paths (home cwd arg : List Char)
    (hh : '\n' ∉ home) (hc : '\n' ∉ cwd) (ha : '\n' ∉ arg) :
    (arg.head? = some '/' →
      cdOneArgTarget home cwd arg = some (home ++ arg) ∧
      (home ≠ [] → cdOneArgTarget home cwd arg ≠ some arg)) ∧
    (∀ c, arg.head? = some c → c ≠ '/' →
      cdOneArgTarget home cwd arg = some (cwd ++ '/' :: arg)) := by
  constructor
  · intro habs
    have hargne : arg ≠ [] := by
      intro h; rw [h] at habs; simp at habs
    have heq : cdOneArgTarget home cwd arg = some (home ++ arg) := by
      unfold cdOneArgTarget
      rw [if_pos habs]
      apply strtokFirst_of_no_delim
      · simp [hargne]
      · intro c hc2
        rcases List.mem_append.mp hc2 with h1 | h2
        · exact fun he => hh (he ▸ h1)
        · exact fun he => ha (he ▸ h2)
    refine ⟨heq, fun hhome hbad => ?_⟩
    rw [heq] at hbad
    have : (home ++ arg).length = arg.length := by
      simpa using congrArg (fun o => (o.getD []).length) hbad
    rw [List.length_append] at this
    have : home.length = 0 := by omega
    exact hhome (List.length_eq_zero.mp this)
  · intro c hhead hslash
    unfold cdOneArgTarget
    rw [if_neg (by rw [hhead]; exact fun h => hslash (by injection h))]
    apply strtokFirst_of_no_delim
    · simp
    · intro x hx
      rcases List.mem_append.mp hx with h1 | h2
      · exact fun he => hc (he ▸ h1)
      · rcases List.mem_cons.mp h2 with h3 | h4
        · rw [h3]; decide
        · exact fun he => ha (he ▸ h4)

theorem c9_cd_paths_witness :
    ('\n' ∉ "/h".toList ∧ '\n' ∉ "/tmp".toList ∧ '\n' ∉ "/abs".toList) ∧
    (cdOneArgTarget "/h".toList "/tmp".toList "/abs".toList =
        some ("/h".toList ++ "/abs".toList) ∧
      cdOneArgTarget "/h".toList "/tmp".toList "/abs".toList ≠
        some "/abs".toList) := by
  refine ⟨by decide, ?_⟩
  have h := (c9_cd_paths "/h".toList "/tmp".toList "/abs".toList
    (by decide) (by decide) (by decide)).1 (by decide)
  exact ⟨h.1, h.2 (by decide)⟩

/-- Claim C8: on each receipt of SIGTSTP the handler first synchronously waits
on the recorded foreground pid, then flips the foreground-only flag, and then
performs exactly one raw unbuffered write, of the Exiting message when the flag
was on and of the Entering message when it was off; the literal write lengths
30 and 50 cover those two messages exactly. -/
theorem c8_sigtstp (b : Bool) (pid : Int) :
    (catchSIGTSTP b pid).2.head? = some (HandlerAction.waitFor pid) ∧
    (catchSIGTSTP b pid).1 = !b ∧
    (catchSIGTSTP b pid).2 =
      [HandlerAction.waitFor pid,
       HandlerAction.writeStdout (if b then exitingModeMsg else enteringModeMsg)
         (if b then 30 else 50)] ∧
    exitingModeMsg.length = 30 ∧ enteringModeMsg.length = 50 := by
  cases b <;> simp [catchSIGTSTP] <;> decide

theorem c8_sigtstp_witness :
    (catchSIGTSTP true 42).2.head? = some (HandlerAction.waitFor 42) ∧
    (catchSIGTSTP true 42).1 = !true ∧
    (catchSIGTSTP true 42).2 =
      [HandlerAction.waitFor 42,
       HandlerAction.writeStdout (if true then exitingModeMsg else enteringModeMsg)
         (if true then 30 else 50)] ∧
    exitingModeMsg.length = 30 ∧ enteringModeMsg.length = 50 :=
  c8_sigtstp true 42

/-- Claim C1 (code-bug evaluation): on the input "1$$2$$3" with shell pid 42,
`dollarsToPID` yields "1422" - the second "$$" marker is not expanded and the
trailing "3" is dropped - instead of the claimed "1422423" in which each
marker is replaced and all surrounding characters are preserved. -/
theorem c1_dollars_eval :
    dollarsToPID "1$$2$$3".toList "42".toList = some "1422".toList ∧
    some "1422".toList ≠
      some ("1".toList ++ "42".toList ++ "2".toList ++ "42".toList ++ "3".toList) := by
  decide

/-- Claim C10 (code-bug evaluation): the line consisting of three spaces and a
newline is not reduced to nothing by the newline strip (strtok returns the
three spaces), so it reaches the dispatch step, yet splitting it on spaces
yields the empty token sequence: `argumentArray[0]` stays NULL and the
unguarded `strcpy`/`strcmp` on the first token dereference NULL. -/
theorem c10_empty_tokens :
    strtokFirst "   \n".toList '\n' = some "   ".toList ∧
    lineTokens "42".toList "   \n".toList = some [] ∧
    ([] : List (List Char)).head? = none := by
  decide

lemma registerAll_spec (ps : List Int) : ∀ (st : JobTable),
    st.table.length = 200 → st.next < 200 → st.next + ps.length ≤ 200 →
    (registerAll st ps).next = (st.next + ps.length) % 200 ∧
    (registerAll st ps).table.length = 200 ∧
    ∀ i, (registerAll st ps).table[i]? =
      if st.next ≤ i ∧ i < st.next + ps.length then ps[i - st.next]?
      else st.table[i]? := by
  induction ps with
  | nil =>
    intro st hlen hlt _
    refine ⟨by simp [registerAll, Nat.mod_eq_of_lt hlt], by simp [registerAll, hlen], ?_⟩
    intro i
    simp only [registerAll, List.foldl_nil, List.length_nil]
    rw [if_neg (by omega)]
  | cons p ps ih =>
    intro st hlen hlt hle
    simp only [List.length_cons] at hle
    by_cases h199 : st.next = 199
    · have hps : ps = [] := List.length_eq_zero.mp (by omega)
      subst hps
      refine ⟨?_, ?_, ?_⟩
      · simp [registerAll, registerBG, h199]
      · simp [registerAll, registerBG, hlen]
      · intro i
        simp only [registerAll, List.foldl_cons, List.foldl_nil, registerBG,
          List.length_cons, List.length_nil]
        rw [List.getElem?_set]
        by_cases hi : i = st.next
        · subst hi
          rw [if_pos rfl, if_pos (by omega), if_pos (by omega), Nat.sub_self]
          simp
        · rw [if_neg (fun he => hi he.symm), if_neg (by omega)]
    · have hnext : (registerBG st p).next = st.next + 1 := by
        simp [registerBG, h199]
      have hlen2 : (registerBG st p).table.length = 200 := by
        simp [registerBG, hlen]
      obtain ⟨hn, hl, hg⟩ := ih (registerBG st p) hlen2 (by omega) (by rw [hnext]; omega)
      refine ⟨?_, hl, ?_⟩
      · simp only [registerAll, List.foldl_cons] at hn ⊢
        rw [hn, hnext, List.length_cons]
        congr 1
        omega
      · intro i
        have hgi := hg i
        simp only [registerAll, List.foldl_cons] at hgi ⊢
        rw [hgi, hnext, List.length_cons]
        by_cases hcase : st.next + 1 ≤ i ∧ i < st.next + 1 + ps.length
        · rw [if_pos hcase, if_pos (by omega)]
          have hidx : i - st.next = (i - (st.next + 1)) + 1 := by omega
          rw [hidx, List.getElem?_cons_succ]
        · rw [if_neg hcase]
          simp only [registerBG]
          rw [List.getElem?_set]
          by_cases hi : i = st.next
          · subst hi
            rw [if_pos rfl, if_pos (by omega), if_pos (by omega), Nat.sub_self]
            simp
          · rw [if_neg (fun he => hi he.symm), if_neg (fun hcon => hcase ⟨by omega, by omega⟩)]

/-- Claim C2: the job table has fixed capacity 200 and its insertion position
advances monotonically modulo 200; registering 201 distinct pids without any
reaping in between puts the first pid in slot 0 after 200 registrations, lets
the 201st registration silently overwrite slot 0, and afterwards no reaping
pass, whatever set of processes has completed, can ever report the pid that
occupied slot 0 before the overwrite. -/
theorem c2_job_overwrite (ps : List Int) (p0 : Int)
    (hlen : ps.length = 201) (h0 : ps[0]? = some p0) (hdist : p0 ∉ ps.drop 1) :
    initJobTable.table.length = 200 ∧
    (∀ k, k ≤ 201 → (registerAll initJobTable (ps.take k)).next = k % 200) ∧
    (registerAll initJobTable (ps.take 200)).table[0]? = some p0 ∧
    (registerAll initJobTable ps).table[0]? = ps[200]? ∧
    (∀ done : Int → Bool, p0 ∉ reapReported (registerAll initJobTable ps) done) := by
  have hinit_len : initJobTable.table.length = 200 := by simp [initJobTable]
  have hinit_next : initJobTable.next = 0 := rfl
  -- split off the 201st pid
  obtain ⟨q, hq⟩ : ∃ q, ps.drop 200 = [q] := by
    have h1 : (ps.drop 200).length = 1 := by rw [List.length_drop, hlen]
    match hd : ps.drop 200 with
    | [q] => exact ⟨q, rfl⟩
    | [] => rw [hd] at h1; simp at h1
    | a :: b :: t => rw [hd] at h1; simp at h1
  have hq200 : ps[200]? = some q := by
    have := List.getElem?_drop ps 200 0
    rw [hq] at this
    simpa using this.symm
  have hsplit : ps = ps.take 200 ++ [q] := by
    conv_lhs => rw [← List.take_append_drop 200 ps]
    rw [hq]
  have htk_len : (ps.take 200).length = 200 := by
    rw [List.length_take, hlen]
    omega
  -- master lemma applied to the first 200 registrations
  obtain ⟨hAn, hAl, hAg⟩ := registerAll_spec (ps.take 200) initJobTable hinit_len
    (by rw [hinit_next]; omega) (by rw [hinit_next, htk_len])
  rw [hinit_next] at hAn hAg
  rw [htk_len] at hAn
  have hAn0 : (registerAll initJobTable (ps.take 200)).next = 0 := by
    rw [hAn]
  -- the final state after the 201st registration
  have hfin : registerAll initJobTable ps =
      registerBG (registerAll initJobTable (ps.take 200)) q := by
    conv_lhs => rw [hsplit]
    simp [registerAll, List.foldl_append]
  have hfin_tab : (registerAll initJobTable ps).table =
      (registerAll initJobTable (ps.take 200)).table.set 0 q := by
    rw [hfin]
    simp [registerBG, hAn0]
  have hslot0_before : (registerAll initJobTable (ps.take 200)).table[0]? = some p0 := by
    rw [hAg 0, if_pos (by omega), Nat.sub_zero, List.getElem?_take, if_pos (by omega)]
    exact h0
  refine ⟨hinit_len, ?_, hslot0_before, ?_, ?_⟩
  · intro k hk
    rcases Nat.lt_or_ge k 201 with hk200 | hk201
    · have hk' : k ≤ 200 := by omega
      have htkk : (ps.take k).length = k := by rw [List.length_take, hlen]; omega
      obtain ⟨hn, _, _⟩ := registerAll_spec (ps.take k) initJobTable hinit_len
        (by rw [hinit_next]; omega) (by rw [hinit_next, htkk]; omega)
      rw [hn, hinit_next, htkk]
      omega
    · have hk' : k = 201 := by omega
      subst hk'
      have : ps.take 201 = ps := List.take_of_length_le (by omega)
      rw [this, hfin]
      simp [registerBG, hAn0]
  · rw [hfin_tab, hq200, List.getElem?_set, if_pos rfl, if_pos (by omega)]
  · intro done hmem
    have hmem2 : p0 ∈ (registerAll initJobTable ps).table :=
      (List.mem_filter.mp hmem).1
    obtain ⟨n, hn⟩ := List.mem_iff_getElem?.mp hmem2
    rw [hfin_tab, List.getElem?_set] at hn
    have hq_in : q ∈ ps.drop 1 := by
      apply List.mem_iff_getElem?.mpr
      refine ⟨199, ?_⟩
      rw [List.getElem?_drop]
      simpa using hq200
    by_cases hn0 : 0 = n
    · rw [if_pos hn0, if_pos (by omega)] at hn
      have : q = p0 := by injection hn
      exact hdist (this ▸ hq_in)
    · rw [if_neg hn0] at hn
      have hnlt : n < 200 := by
        by_contra hge
        rw [List.getElem?_eq_none (by omega)] at hn
        exact Option.noConfusion hn
      rw [hAg n, if_pos (by omega), Nat.sub_zero, List.getElem?_take] at hn
      rw [if_pos hnlt] at hn
      have hp0_in : p0 ∈ ps.drop 1 := by
        apply List.mem_iff_getElem?.mpr
        refine ⟨n - 1, ?_⟩
        rw [List.getElem?_drop]
        have : 1 + (n - 1) = n := by omega
        rw [this]
        simpa using hn
      exact hdist hp0_in

theorem c2_job_overwrite_witness :
    (c2ps.length = 201 ∧ c2ps[0]? = some 1 ∧ (1 : Int) ∉ c2ps.drop 1) ∧
    (initJobTable.table.length = 200 ∧
      (∀ k, k ≤ 201 → (registerAll initJobTable (c2ps.take k)).next = k % 200) ∧
      (registerAll initJobTable (c2ps.take 200)).table[0]? = some 1 ∧
      (registerAll initJobTable c2ps).table[0]? = c2ps[200]? ∧
      (∀ done : Int → Bool, (1 : Int) ∉ reapReported (registerAll initJobTable c2ps) done)) :=
  ⟨⟨by decide, by decide, by decide⟩,
    c2_job_overwrite c2ps 1 (by decide) (by decide) (by decide)⟩

lemma filter_length_set_free (l : List Int) (i : Nat) (p : Int)
    (hfree : l[i]? = some (-5)) (hp : p ≠ -5) :
    ((l.set i p).filter (fun q => q != -5)).length
      = (l.filter (fun q => q != -5)).length + 1 := by
  induction l generalizing i with
  | nil => simp at hfree
  | cons a t ih =>
    cases i with
    | zero =>
      have ha : a = -5 := by simpa using hfree
      subst ha
      rw [List.set_cons_zero, List.filter_cons, List.filter_cons,
        if_pos (bne_iff_ne.mpr hp), if_neg (by decide)]
      simp
    | succ j =>
      rw [List.getElem?_cons_succ] at hfree
      rw [List.set_cons_succ, List.filter_cons, List.filter_cons]
      by_cases hA : (a != -5) = true
      · rw [if_pos hA, if_pos hA]
        simp only [List.length_cons]
        rw [ih j hfree]
      · rw [if_neg hA, if_neg hA]
        exact ih j hfree

lemma filter_length_reap (done : Int → Bool) (l : List Int) :
    ((l.map (fun p => if p != -5 && done p then -5 else p)).filter
        (fun q => q != -5)).length
      + (l.filter (fun p => p != -5 && done p)).length
      = (l.filter (fun q => q != -5)).length := by
  induction l with
  | nil => simp
  | cons a t ih =>
    simp only [List.map_cons, List.filter_cons]
    by_cases hd : (a != -5 && done a) = true
    · have hdc := hd
      rw [Bool.and_eq_true] at hdc
      rw [if_pos hd, if_pos hd, if_neg (by decide), if_pos hdc.1]
      simp only [List.length_cons]
      omega
    · rw [if_neg hd, if_neg hd]
      by_cases ha : (a != -5) = true
      · rw [if_pos ha, if_pos ha]
        simp only [List.length_cons]
        omega
      · rw [if_neg ha, if_neg ha]
        exact ih

lemma occupiedSlots_registerBG (st : JobTable) (p : Int)
    (hfree : st.table[st.next]? = some (-5)) (hp : p ≠ -5) :
    occupiedSlots (registerBG st p) = occupiedSlots st + 1 := by
  unfold occupiedSlots registerBG
  exact filter_length_set_free st.table st.next p hfree hp

lemma occupiedSlots_reapPass (st : JobTable) (done : Int → Bool) :
    occupiedSlots (reapPass st done) + reapCount st done = occupiedSlots st := by
  unfold occupiedSlots reapPass reapCount reapReported
  exact filter_length_reap done st.table

lemma runFrom_invariant : ∀ (es : List ShellEvent) (acc : LoopStats),
    traceOk acc.st es = true → acc.st.table.length = 200 →
    (runFrom acc es).st.table.length = 200 ∧
    occupiedSlots (runFrom acc es).st + (runFrom acc es).reaped + acc.spawned
      = occupiedSlots acc.st + acc.reaped + (runFrom acc es).spawned := by
  intro es
  induction es with
  | nil =>
    intro acc _ hlen
    exact ⟨hlen, rfl⟩
  | cons e es ih =>
    intro acc hok hlen
    cases e with
    | spawnBG p =>
      simp only [traceOk, Bool.and_eq_true, bne_iff_ne, beq_iff_eq] at hok
      obtain ⟨⟨hp, hfree⟩, hok2⟩ := hok
      have hlen2 : (registerBG acc.st p).table.length = 200 := by
        simp [registerBG, hlen]
      have hocc := occupiedSlots_registerBG acc.st p hfree hp
      obtain ⟨hl, heq⟩ := ih
        { st := registerBG acc.st p, spawned := acc.spawned + 1, reaped := acc.reaped }
        hok2 hlen2
      refine ⟨by simpa [runFrom, stepLoop] using hl, ?_⟩
      simp only [runFrom, List.foldl_cons, stepLoop] at heq ⊢
      omega
    | reapPassEv d =>
      simp only [traceOk] at hok
      have hlen2 : (reapPass acc.st d).table.length = 200 := by
        simp [reapPass, hlen]
      have hocc := occupiedSlots_reapPass acc.st d
      obtain ⟨hl, heq⟩ := ih
        { st := reapPass acc.st d, spawned := acc.spawned,
          reaped := acc.reaped + reapCount acc.st d }
        hok hlen2
      refine ⟨by simpa [runFrom, stepLoop] using hl, ?_⟩
      simp only [runFrom, List.foldl_cons, stepLoop] at heq ⊢
      omega

/-- Claim C3 (counterexample): after the concrete sequence of 201 background
spawns with pids 1..201 and no reaping, the job table holds 200 occupied
slots while spawns minus reaps is 201, so the claimed equality fails on the
code (the wraparound overwrote slot 0). -/
theorem c3_counterexample :
    occupiedSlots (runLoop c3spawns).st = 200 ∧
    (runLoop c3spawns).spawned = 201 ∧
    (runLoop c3spawns).reaped = 0 ∧
    occupiedSlots (runLoop c3spawns).st ≠
      (runLoop c3spawns).spawned - (runLoop c3spawns).reaped := by
  decide

/-- Claim C3 (amended): for every sequence of loop events in which each
background registration lands on a free slot (the wraparound never reaches an
unreaped identifier) and registers a pid distinct from the sentinel, the
number of occupied job-table slots equals background spawns issued minus
completions reaped, and is bounded by the capacity 200. -/
theorem c3_amended (es : List ShellEvent) (hok : traceOk initJobTable es = true) :
    occupiedSlots (runLoop es).st = (runLoop es).spawned - (runLoop es).reaped ∧
    (runLoop es).reaped ≤ (runLoop es).spawned ∧
    occupiedSlots (runLoop es).st ≤ 200 := by
  have h0 : occupiedSlots initJobTable = 0 := by decide
  obtain ⟨hl, heq⟩ := runFrom_invariant es initLoopStats hok (by decide)
  have hocc0 : occupiedSlots initLoopStats.st = 0 := h0
  have hb : occupiedSlots (runFrom initLoopStats es).st ≤ 200 := by
    calc occupiedSlots (runFrom initLoopStats es).st
        ≤ (runFrom initLoopStats es).st.table.length := List.length_filter_le _ _
      _ = 200 := hl
  refine ⟨?_, ?_, hb⟩
  · simp only [runLoop, initLoopStats] at heq hocc0 ⊢
    omega
  · simp only [runLoop, initLoopStats] at heq hocc0 ⊢
    omega

theorem c3_amended_witness :
    traceOk initJobTable c3smallTrace = true ∧
    (occupiedSlots (runLoop c3smallTrace).st =
        (runLoop c3smallTrace).spawned - (runLoop c3smallTrace).reaped ∧
      (runLoop c3smallTrace).reaped ≤ (runLoop c3smallTrace).spawned ∧
      occupiedSlots (runLoop c3smallTrace).st ≤ 200) :=
  ⟨by decide, c3_amended c3smallTrace (by decide)⟩

lemma getS_map_some (args : List String) (i : Nat) :
    getS (args.map some) i = args[i]? := by
  unfold getS
  rw [List.getElem?_map]
  cases args[i]? <;> rfl

lemma getS_append_right2 (b rest : List (Option String)) (i : Nat) (h : b.length ≤ i) :
    getS (b ++ rest) i = getS rest (i - b.length) := by
  unfold getS
  rw [List.getElem?_append_right h]

lemma set_append_right2 (b rest : List (Option String)) (i : Nat) (h : b.length ≤ i)
    (v : Option String) : (b ++ rest).set i v = b ++ rest.set (i - b.length) v := by
  rw [List.set_append, if_neg (by omega)]

lemma getElem?_set2_ne (x : List (Option String)) (u v j : Nat)
    (hu : u ≠ j) (hv : v ≠ j) (w1 w2 : Option String) :
    ((x.set u w1).set v w2)[j]? = x[j]? := by
  rw [List.getElem?_set_ne hv, List.getElem?_set_ne hu]

lemma pairCheck_not_op (env : SysEnv) (a : List (Option String)) (i : Nat)
    (h1 : getS a i ≠ some "<") (h2 : getS a i ≠ some ">") :
    pairCheck env a i = Except.ok (a, none, none) := by
  unfold pairCheck
  rw [if_neg h1, if_neg h2]

lemma pairCheck_allOk_in (a : List (Option String)) (i : Nat)
    (h : getS a i = some "<") :
    pairCheck envAllOk a i =
      Except.ok ((a.set (i + 1) none).set i none, some ((getS a (i + 1)).getD ""), none) := by
  unfold pairCheck
  rw [if_pos h]
  simp [envAllOk]

lemma pairCheck_allOk_out (a : List (Option String)) (i : Nat)
    (h : getS a i = some ">") :
    pairCheck envAllOk a i =
      Except.ok ((a.set (i + 1) none).set i none, none, some ((getS a (i + 1)).getD "")) := by
  unfold pairCheck
  rw [if_neg (by rw [h]; decide), if_pos h]
  simp [envAllOk]

lemma pairCheck_allOk_exists (a : List (Option String)) (i : Nat) :
    ∃ t, pairCheck envAllOk a i = Except.ok t ∧
      ∀ j, j ≠ i → j ≠ i + 1 → t.1[j]? = a[j]? := by
  by_cases h1 : getS a i = some "<"
  · refine ⟨_, pairCheck_allOk_in a i h1, ?_⟩
    intro j hj1 hj2
    exact getElem?_set2_ne a (i + 1) i j (fun he => hj2 he.symm) (fun he => hj1 he.symm)
      none none
  · by_cases h2 : getS a i = some ">"
    · refine ⟨_, pairCheck_allOk_out a i h2, ?_⟩
      intro j hj1 hj2
      exact getElem?_set2_ne a (i + 1) i j (fun he => hj2 he.symm) (fun he => hj1 he.symm)
        none none
    · exact ⟨_, pairCheck_not_op envAllOk a i h1 h2, fun j _ _ => rfl⟩

lemma redirPhase_allOk_exists (a : List (Option String)) (last : Nat) :
    ∃ t, redirPhase envAllOk a last = Except.ok t ∧
      ∀ j, (j + 4 ≤ last ∨ last < j) → t.1[j]? = a[j]? := by
  by_cases h1 : 1 ≤ last
  · obtain ⟨⟨a2, i1, o1⟩, ht1, hp1⟩ := pairCheck_allOk_exists a (last - 1)
    by_cases h3 : 3 ≤ last
    · obtain ⟨⟨a3, i2, o2⟩, ht2, hp2⟩ := pairCheck_allOk_exists a2 (last - 3)
      refine ⟨(a3, i2 <|> i1, o2 <|> o1), ?_, ?_⟩
      · unfold redirPhase
        rw [if_pos h1, ht1]
        dsimp only
        rw [if_pos h3, ht2]
      · intro j hj
        have e2 := hp2 j (by omega) (by omega)
        have e1 := hp1 j (by omega) (by omega)
        dsimp only at e1 e2 ⊢
        rw [e2, e1]
    · refine ⟨(a2, i1, o1), ?_, ?_⟩
      · unfold redirPhase
        rw [if_pos h1, ht1]
        dsimp only
        rw [if_neg h3]
        rfl
      · intro j hj
        dsimp only
        exact hp1 j (by omega) (by omega)
  · refine ⟨(a, none, none), ?_, fun j _ => rfl⟩
    unfold redirPhase
    rw [if_neg h1]
    dsimp only
    rw [if_neg (show ¬3 ≤ last by omega)]
    rfl

lemma tryToRun_false (env : SysEnv) (args0 : List String) :
    tryToRunCommand env args0 false =
      match redirPhase env (args0.map some) (args0.length - 1) with
      | Except.error m => ChildResult.openFail m
      | Except.ok (a3, inP, outP) =>
        if env.execvpOk ((getS a3 0).getD "") then ChildResult.execed a3 inP outP
        else ChildResult.execFail (((getS a3 0).getD "") ++ ": no such file or directory\n")
          a3 inP outP := by
  unfold tryToRunCommand
  dsimp only
  rw [show (if (false = true) then (args0.map some).set (args0.length - 1) none
      else args0.map some) = args0.map some from rfl]
  rw [show (if (false = true) then args0.length - 1 - 1 else args0.length - 1)
      = args0.length - 1 from rfl]
  cases hred : redirPhase env (args0.map some) (args0.length - 1) with
  | error m => rfl
  | ok t =>
    obtain ⟨a3, inP, outP⟩ := t
    dsimp only
    rw [if_neg (by simp), if_neg (by simp)]

lemma tryToRun_true_allOk (args0 : List String) :
    tryToRunCommand envAllOk args0 true =
      match redirPhase envAllOk ((args0.map some).set (args0.length - 1) none)
          (args0.length - 1 - 1) with
      | Except.error m => ChildResult.openFail m
      | Except.ok (a3, inP, outP) => ChildResult.execed a3 inP outP := by
  unfold tryToRunCommand
  dsimp only
  rw [show (if (true = true) then (args0.map some).set (args0.length - 1) none
      else args0.map some) = (args0.map some).set (args0.length - 1) none from rfl]
  rw [show (if (true = true) then args0.length - 1 - 1 else args0.length - 1)
      = args0.length - 1 - 1 from rfl]
  cases hred : redirPhase envAllOk ((args0.map some).set (args0.length - 1) none)
      (args0.length - 1 - 1) with
  | error m => rfl
  | ok t =>
    obtain ⟨a3, inP, outP⟩ := t
    dsimp only
    rw [if_neg (by simp [envAllOk]), if_neg (by simp [envAllOk]),
      if_pos (by simp [envAllOk])]

/-- Claim C5: after the trailing background marker is removed, redirection is
recognized only from a "<" or ">" operator immediately preceding a filename in
the last two or the second-to-last two positions of the argument vector:
tokens more than three places before the last (in particular any "<" or ">"
elsewhere in the line) survive literally into the vector passed to program
replacement; when neither window head is an operator nothing is consumed and
no path is recorded; and an input and an output redirection may be given in
either order, each pair consumed at most once, removed from the vector, and
both target paths recorded. -/
theorem c5_redirection (args : List String) (h : args ≠ []) :
    (∀ i s, args[i]? = some s → i + 4 ≤ args.length - 1 →
      (redirArgv (tryToRunCommand envAllOk args false))[i]? = some (some s)) ∧
    ((args[args.length - 2]? ≠ some "<" ∧ args[args.length - 2]? ≠ some ">" ∧
      args[args.length - 4]? ≠ some "<" ∧ args[args.length - 4]? ≠ some ">") →
      tryToRunCommand envAllOk args false =
        ChildResult.execed (args.map some) none none) ∧
    (∀ base f g, args = base ++ ["<", f, ">", g] →
      tryToRunCommand envAllOk args false =
        ChildResult.execed (base.map some ++ [none, none, none, none])
          (some f) (some g)) ∧
    (∀ base f g, args = base ++ [">", g, "<", f] →
      tryToRunCommand envAllOk args false =
        ChildResult.execed (base.map some ++ [none, none, none, none])
          (some f) (some g)) := by
  refine ⟨?_, ?_, ?_, ?_⟩
  · intro i s hs hi
    obtain ⟨⟨a3, inP, outP⟩, heq, hpass⟩ :=
      redirPhase_allOk_exists (args.map some) (args.length - 1)
    rw [tryToRun_false, heq]
    dsimp only
    rw [if_pos (by simp [envAllOk])]
    have hp := hpass i (Or.inl hi)
    dsimp only at hp
    dsimp only [redirArgv]
    rw [hp, List.getElem?_map, hs]
    rfl
  · intro ⟨hne1, hne2, hne3, hne4⟩
    rw [tryToRun_false]
    have hid : redirPhase envAllOk (args.map some) (args.length - 1) =
        Except.ok (args.map some, none, none) := by
      unfold redirPhase
      by_cases h1 : 1 ≤ args.length - 1
      · have e1 : args.length - 1 - 1 = args.length - 2 := by omega
        rw [if_pos h1, e1, pairCheck_not_op envAllOk _ _
          (by rw [getS_map_some]; exact hne1) (by rw [getS_map_some]; exact hne2)]
        dsimp only
        by_cases h3 : 3 ≤ args.length - 1
        · have e2 : args.length - 1 - 3 = args.length - 4 := by omega
          rw [if_pos h3, e2, pairCheck_not_op envAllOk _ _
            (by rw [getS_map_some]; exact hne3) (by rw [getS_map_some]; exact hne4)]
          rfl
        · rw [if_neg h3]
          rfl
      · rw [if_neg h1]
        dsimp only
        rw [if_neg (show ¬3 ≤ args.length - 1 by omega)]
        rfl
    rw [hid]
    dsimp only
    rw [if_pos (by simp [envAllOk])]
  · intro base f g harg
    subst harg
    have hL : (base.map some).length = base.length := by simp
    have hA : ((base ++ ["<", f, ">", g]).map some)
        = base.map some ++ [some "<", some f, some ">", some g] := by simp
    have hlen : (base ++ ["<", f, ">", g]).length = base.length + 4 := by simp
    rw [tryToRun_false, hA, hlen]
    have e0 : base.length + 4 - 1 = base.length + 3 := by omega
    rw [e0]
    unfold redirPhase
    rw [if_pos (show 1 ≤ base.length + 3 by omega)]
    have e1 : base.length + 3 - 1 = base.length + 2 := by omega
    rw [e1]
    have hg2 : getS (base.map some ++ [some "<", some f, some ">", some g])
        (base.length + 2) = some ">" := by
      rw [getS_append_right2 _ _ _ (by simp only [List.length_map]; omega)]
      have e : base.length + 2 - (base.map some).length = 2 := by rw [hL]; omega
      rw [e]
      rfl
    rw [pairCheck_allOk_out _ _ hg2]
    have hg3 : getS (base.map some ++ [some "<", some f, some ">", some g])
        (base.length + 2 + 1) = some g := by
      rw [getS_append_right2 _ _ _ (by simp only [List.length_map]; omega)]
      have e : base.length + 2 + 1 - (base.map some).length = 3 := by rw [hL]; omega
      rw [e]
      rfl
    rw [hg3]
    have hset1 : (((base.map some ++ [some "<", some f, some ">", some g]).set
          (base.length + 2 + 1) none).set (base.length + 2) none)
        = base.map some ++ [some "<", some f, none, none] := by
      rw [set_append_right2 _ _ _ (by simp only [List.length_map]; omega)]
      have e : base.length + 2 + 1 - (base.map some).length = 3 := by rw [hL]; omega
      rw [e]
      rw [set_append_right2 _ _ _ (by simp only [List.length_map]; omega)]
      have e2 : base.length + 2 - (base.map some).length = 2 := by rw [hL]; omega
      rw [e2]
      rfl
    rw [hset1]
    dsimp only
    rw [if_pos (show 3 ≤ base.length + 3 by omega)]
    have e2 : base.length + 3 - 3 = base.length := by omega
    rw [e2]
    have hg4 : getS (base.map some ++ [some "<", some f, none, none]) base.length
        = some "<" := by
      rw [getS_append_right2 _ _ _ (by simp only [List.length_map]; omega)]
      have e : base.length - (base.map some).length = 0 := by rw [hL]; omega
      rw [e]
      rfl
    rw [pairCheck_allOk_in _ _ hg4]
    have hg5 : getS (base.map some ++ [some "<", some f, none, none])
        (base.length + 1) = some f := by
      rw [getS_append_right2 _ _ _ (by simp only [List.length_map]; omega)]
      have e : base.length + 1 - (base.map some).length = 1 := by rw [hL]; omega
      rw [e]
      rfl
    rw [hg5]
    have hset2 : (((base.map some ++ [some "<", some f, none, none]).set
          (base.length + 1) none).set base.length none)
        = base.map some ++ [none, none, none, none] := by
      rw [set_append_right2 _ _ _ (by simp only [List.length_map]; omega)]
      have e : base.length + 1 - (base.map some).length = 1 := by rw [hL]; omega
      rw [e]
      rw [set_append_right2 _ _ _ (by simp only [List.length_map]; omega)]
      have e2 : base.length - (base.map some).length = 0 := by rw [hL]; omega
      rw [e2]
      rfl
    rw [hset2]
    dsimp only
    rw [if_pos (by simp [envAllOk])]
    rfl
  · intro base f g harg
    subst harg
    have hL : (base.map some).length = base.length := by simp
    have hA : ((base ++ [">", g, "<", f]).map some)
        = base.map some ++ [some ">", some g, some "<", some f] := by simp
    have hlen : (base ++ [">", g, "<", f]).length = base.length + 4 := by simp
    rw [tryToRun_false, hA, hlen]
    have e0 : base.length + 4 - 1 = base.length + 3 := by omega
    rw [e0]
    unfold redirPhase
    rw [if_pos (show 1 ≤ base.length + 3 by omega)]
    have e1 : base.length + 3 - 1 = base.length + 2 := by omega
    rw [e1]
    have hg2 : getS (base.map some ++ [some ">", some g, some "<", some f])
        (base.length + 2) = some "<" := by
      rw [getS_append_right2 _ _ _ (by simp only [List.length_map]; omega)]
      have e : base.length + 2 - (base.map some).length = 2 := by rw [hL]; omega
      rw [e]
      rfl
    rw [pairCheck_allOk_in _ _ hg2]
    have hg3 : getS (base.map some ++ [some ">", some g, some "<", some f])
        (base.length + 2 + 1) = some f := by
      rw [getS_append_right2 _ _ _ (by simp only [List.length_map]; omega)]
      have e : base.length + 2 + 1 - (base.map some).length = 3 := by rw [hL]; omega
      rw [e]
      rfl
    rw [hg3]
    have hset1 : (((base.map some ++ [some ">", some g, some "<", some f]).set
          (base.length + 2 + 1) none).set (base.length + 2) none)
        = base.map some ++ [some ">", some g, none, none] := by
      rw [set_append_right2 _ _ _ (by simp only [List.length_map]; omega)]
      have e : base.length + 2 + 1 - (base.map some).length = 3 := by rw [hL]; omega
      rw [e]
      rw [set_append_right2 _ _ _ (by simp only [List.length_map]; omega)]
      have e2 : base.length + 2 - (base.map some).length = 2 := by rw [hL]; omega
      rw [e2]
      rfl
    rw [hset1]
    dsimp only
    rw [if_pos (show 3 ≤ base.length + 3 by omega)]
    have e2 : base.length + 3 - 3 = base.length := by omega
    rw [e2]
    have hg4 : getS (base.map some ++ [some ">", some g, none, none]) base.length
        = some ">" := by
      rw [getS_append_right2 _ _ _ (by simp only [List.length_map]; omega)]
      have e : base.length - (base.map some).length = 0 := by rw [hL]; omega
      rw [e]
      rfl
    rw [pairCheck_allOk_out _ _ hg4]
    have hg5 : getS (base.map some ++ [some ">", some g, none, none])
        (base.length + 1) = some g := by
      rw [getS_append_right2 _ _ _ (by simp only [List.length_map]; omega)]
      have e : base.length + 1 - (base.map some).length = 1 := by rw [hL]; omega
      rw [e]
      rfl
    rw [hg5]
    have hset2 : (((base.map some ++ [some ">", some g, none, none]).set
          (base.length + 1) none).set base.length none)
        = base.map some ++ [none, none, none, none] := by
      rw [set_append_right2 _ _ _ (by simp only [List.length_map]; omega)]
      have e : base.length + 1 - (base.map some).length = 1 := by rw [hL]; omega
      rw [e]
      rw [set_append_right2 _ _ _ (by simp only [List.length_map]; omega)]
      have e2 : base.length - (base.map some).length = 0 := by rw [hL]; omega
      rw [e2]
      rfl
    rw [hset2]
    dsimp only
    rw [if_pos (by simp [envAllOk])]
    rfl

theorem c5_redirection_witness :
    ((["wc"] : List String) ≠ []) ∧
    ((∀ i s, (["wc"] : List String)[i]? = some s → i + 4 ≤ (["wc"] : List String).length - 1 →
      (redirArgv (tryToRunCommand envAllOk ["wc"] false))[i]? = some (some s)) ∧
    (((["wc"] : List String)[(["wc"] : List String).length - 2]? ≠ some "<" ∧
      (["wc"] : List String)[(["wc"] : List String).length - 2]? ≠ some ">" ∧
      (["wc"] : List String)[(["wc"] : List String).length - 4]? ≠ some "<" ∧
      (["wc"] : List String)[(["wc"] : List String).length - 4]? ≠ some ">") →
      tryToRunCommand envAllOk ["wc"] false =
        ChildResult.execed ((["wc"] : List String).map some) none none) ∧
    (∀ base f g, (["wc"] : List String) = base ++ ["<", f, ">", g] →
      tryToRunCommand envAllOk ["wc"] false =
        ChildResult.execed (base.map some ++ [none, none, none, none])
          (some f) (some g)) ∧
    (∀ base f g, (["wc"] : List String) = base ++ [">", g, "<", f] →
      tryToRunCommand envAllOk ["wc"] false =
        ChildResult.execed (base.map some ++ [none, none, none, none])
          (some f) (some g))) :=
  ⟨by decide, c5_redirection ["wc"] (by decide)⟩

/-- Claim C4 (counterexample): the command ["echo", "&", "&"] ends in the
background marker, yet with foreground-only mode active the dispatch strips
only one "&", re-checks the new last token, and still marks the command
background with the background-pid message and no parent wait - contradicting
the claim that in foreground-only mode such a command is never marked
background. -/
theorem c4_counterexample :
    (["echo", "&", "&"] : List String).getLast? = some "&" ∧
    (dispatchCommand ["echo", "&", "&"] true).background = true ∧
    (dispatchCommand ["echo", "&", "&"] true).printsBgPidMsg = true ∧
    (dispatchCommand ["echo", "&", "&"] true).parentWaits = false := by
  decide

/-- Claim C4 (amended): for every command `rest ++ ["&"]` with nonempty `rest`
whose last token is not itself "&": when foreground-only mode is inactive the
command is marked background, the parent prints the background-pid message
and does not wait, and the child called with the background flag nulls the
final "&" out of the argument array before exec; when foreground-only mode is
active the "&" is dropped and the command is dispatched as an ordinary
blocking foreground command - not marked background, no background-pid
message, parent waits. (A command ending in two "&" tokens escapes the
foreground-only half: only one "&" is stripped and it still runs background,
per the counterexample.) -/
theorem c4_amended (rest : List String) (h1 : rest ≠ [])
    (h2 : rest.getLast? ≠ some "&") :
    dispatchCommand (rest ++ ["&"]) false =
      { background := true, printsBgPidMsg := true, parentWaits := false,
        argvAtFork := rest ++ ["&"] } ∧
    (redirArgv (tryToRunCommand envAllOk (rest ++ ["&"]) true))[rest.length]?
      = some none ∧
    dispatchCommand (rest ++ ["&"]) true =
      { background := false, printsBgPidMsg := false, parentWaits := true,
        argvAtFork := rest } := by
  have hL1 : 1 ≤ rest.length := List.length_pos.mpr h1
  refine ⟨?_, ?_, ?_⟩
  · unfold dispatchCommand
    dsimp only
    rw [show (if (false = true) ∧ (rest ++ ["&"]).getLast? = some "&"
        then (rest ++ ["&"]).dropLast else rest ++ ["&"]) = rest ++ ["&"]
      from if_neg (by simp)]
    rw [if_pos (List.getLast?_concat rest)]
  · obtain ⟨⟨a3, inP, outP⟩, heq, hpass⟩ :=
      redirPhase_allOk_exists (((rest ++ ["&"]).map some).set ((rest ++ ["&"]).length - 1) none)
        ((rest ++ ["&"]).length - 1 - 1)
    rw [tryToRun_true_allOk, heq]
    dsimp only [redirArgv]
    have hlt : (rest ++ ["&"]).length - 1 - 1 < rest.length := by
      simp only [List.length_append, List.length_cons, List.length_nil]
      omega
    have hp := hpass rest.length (Or.inr hlt)
    dsimp only at hp
    rw [hp]
    rw [show ((rest ++ ["&"]).map some) = rest.map some ++ [some "&"] from by simp]
    have e0 : (rest ++ ["&"]).length - 1 = rest.length := by simp
    rw [e0]
    rw [set_append_right2 _ _ _ (by simp only [List.length_map]; omega)]
    have e1 : rest.length - (rest.map some).length = 0 := by
      simp only [List.length_map]; omega
    rw [e1, List.set_cons_zero]
    rw [List.getElem?_append_right (by simp only [List.length_map]; omega)]
    have e2 : rest.length - (rest.map some).length = 0 := by
      simp only [List.length_map]; omega
    rw [e2]
    rfl
  · unfold dispatchCommand
    dsimp only
    rw [show (if (true = true) ∧ (rest ++ ["&"]).getLast? = some "&"
        then (rest ++ ["&"]).dropLast else rest ++ ["&"]) = (rest ++ ["&"]).dropLast
      from if_pos ⟨rfl, List.getLast?_concat rest⟩]
    rw [List.dropLast_concat, if_neg h2]

theorem c4_amended_witness :
    ((["sleep", "5"] : List String) ≠ [] ∧
      (["sleep", "5"] : List String).getLast? ≠ some "&") ∧
    (dispatchCommand (["sleep", "5"] ++ ["&"]) false =
      { background := true, printsBgPidMsg := true, parentWaits := false,
        argvAtFork := ["sleep", "5"] ++ ["&"] } ∧
    (redirArgv (tryToRunCommand envAllOk (["sleep", "5"] ++ ["&"]) true))[
      (["sleep", "5"] : List String).length]? = some none ∧
    dispatchCommand (["sleep", "5"] ++ ["&"]) true =
      { background := false, printsBgPidMsg := false, parentWaits := true,
        argvAtFork := ["sleep", "5"] }) :=
  ⟨⟨by decide, by decide⟩, c4_amended ["sleep", "5"] (by decide) (by decide)⟩

/-- Claim C6: in the child, a failed open of an explicit input redirection
target prints "cannot open <path> for input" and the child exits with status 1
without attempting program replacement; a failed execvp prints
"<program>: no such file or directory" and the child exits with status 1; and
in both cases only the attempted child terminates: the interpreter loop
proceeds to the next command and still exits normally through the exit
built-in. -/
theorem c6_child_errors (env : SysEnv) (base : List String) (f prog w : String)
    (hopen : env.openRead f = false) (hexec : env.execvpOk prog = false)
    (hw1 : w ≠ "exit") (hw2 : w ≠ "cd") (_hw3 : w.toList.head? ≠ some '#')
    (hw4 : w ≠ "status") :
    tryToRunCommand env (base ++ ["<", f]) false =
      ChildResult.openFail ("cannot open " ++ f ++ " for input\n") ∧
    execAttempted (tryToRunCommand env (base ++ ["<", f]) false) = false ∧
    childExitStatus (tryToRunCommand env (base ++ ["<", f]) false) = some 1 ∧
    tryToRunCommand env [prog] false =
      ChildResult.execFail (prog ++ ": no such file or directory\n")
        [some prog] none none ∧
    childExitStatus (tryToRunCommand env [prog] false) = some 1 ∧
    runShellLoop (fun _ => true) [[w], ["exit"]] 0 = ([], some 0) := by
  have hopenfail : tryToRunCommand env (base ++ ["<", f]) false =
      ChildResult.openFail ("cannot open " ++ f ++ " for input\n") := by
    rw [tryToRun_false]
    rw [show ((base ++ ["<", f]).map some) = base.map some ++ [some "<", some f]
      from by simp]
    have hlen : (base ++ ["<", f]).length = base.length + 2 := by simp
    rw [hlen]
    have e0 : base.length + 2 - 1 = base.length + 1 := by omega
    rw [e0]
    unfold redirPhase
    rw [if_pos (show 1 ≤ base.length + 1 by omega)]
    have e1 : base.length + 1 - 1 = base.length := by omega
    rw [e1]
    have hg : getS (base.map some ++ [some "<", some f]) base.length = some "<" := by
      rw [getS_append_right2 _ _ _ (by simp only [List.length_map]; omega)]
      have e : base.length - (base.map some).length = 0 := by
        simp only [List.length_map]; omega
      rw [e]
      rfl
    have hgf : getS (base.map some ++ [some "<", some f]) (base.length + 1)
        = some f := by
      rw [getS_append_right2 _ _ _ (by simp only [List.length_map]; omega)]
      have e : base.length + 1 - (base.map some).length = 1 := by
        simp only [List.length_map]; omega
      rw [e]
      rfl
    have hpc : pairCheck env (base.map some ++ [some "<", some f]) base.length =
        Except.error ("cannot open " ++ f ++ " for input\n") := by
      unfold pairCheck
      rw [if_pos hg, hgf]
      dsimp only
      rw [Option.getD_some]
      rw [if_neg (by rw [hopen]; simp)]
    rw [hpc]
  have hexecfail : tryToRunCommand env [prog] false =
      ChildResult.execFail (prog ++ ": no such file or directory\n")
        [some prog] none none := by
    rw [tryToRun_false]
    have hid : redirPhase env ([prog].map some) (([prog] : List String).length - 1) =
        Except.ok ([some prog], none, none) := by
      unfold redirPhase
      rw [if_neg (by simp)]
      dsimp only
      rw [if_neg (by simp)]
      rfl
    rw [hid]
    dsimp only
    rw [show ((getS [some prog] 0).getD "") = prog from rfl]
    rw [if_neg (by rw [hexec]; simp)]
  have hloop : runShellLoop (fun _ => true) [[w], ["exit"]] 0 = ([], some 0) := by
    simp [runShellLoop, hw1, hw2, hw4]
  exact ⟨hopenfail, by rw [hopenfail]; rfl, by rw [hopenfail]; rfl, hexecfail,
    by rw [hexecfail]; rfl, hloop⟩

theorem c6_child_errors_witness :
    (envC6.openRead "missing.txt" = false ∧ envC6.execvpOk "frobnicate" = false ∧
      ("frobnicate" : String) ≠ "exit" ∧ ("frobnicate" : String) ≠ "cd" ∧
      ("frobnicate" : String).toList.head? ≠ some '#' ∧
      ("frobnicate" : String) ≠ "status") ∧
    (tryToRunCommand envC6 (["cat"] ++ ["<", "missing.txt"]) false =
      ChildResult.openFail ("cannot open " ++ "missing.txt" ++ " for input\n") ∧
    execAttempted (tryToRunCommand envC6 (["cat"] ++ ["<", "missing.txt"]) false)
      = false ∧
    childExitStatus (tryToRunCommand envC6 (["cat"] ++ ["<", "missing.txt"]) false)
      = some 1 ∧
    tryToRunCommand envC6 ["frobnicate"] false =
      ChildResult.execFail ("frobnicate" ++ ": no such file or directory\n")
        [some "frobnicate"] none none ∧
    childExitStatus (tryToRunCommand envC6 ["frobnicate"] false) = some 1 ∧
    runShellLoop (fun _ => true) [["frobnicate"], ["exit"]] 0 = ([], some 0)) :=
  ⟨⟨rfl, rfl, by decide, by decide, by decide, by decide⟩,
    c6_child_errors envC6 ["cat"] "missing.txt" "frobnicate" "frobnicate"
      rfl rfl (by decide) (by decide) (by decide) (by decide)⟩

/-- Claim C7 (counterexample): in a run whose single command is a non-built-in
and whose fork fails, the interpreter reports the fork error and exits with
code 1, not 0 - refuting the claim that the interpreter's own exit code is 0
on every run. -/
theorem c7_counterexample :
    runShellLoop (fun _ => false) [["ls"]] 0 =
      (["Major problem creating child!\n"], some 1) ∧
    (some 1 : Option Nat) ≠ some 0 := by
  constructor
  · decide
  · decide

/-- Claim C7 (amended): the interpreter's exit code is 0 on every run in which
process creation never fails (it then ends only through the exit built-in);
on a fork failure the interpreter reports the matching fork-error message and
itself exits, with code 1. -/
theorem c7_amended (forkOk : Nat → Bool) (cmds : List (List String)) :
    ∀ (k : Nat) (msgs : List String) (code : Nat),
    runShellLoop forkOk cmds k = (msgs, some code) →
    ((∀ j, forkOk j = true) → code = 0) ∧
    (code = 0 ∨ (code = 1 ∧
      (msgs = ["Major problem creating background child!\n"] ∨
        msgs = ["Major problem creating child!\n"]))) := by
  induction cmds with
  | nil =>
    intro k msgs code h
    simp [runShellLoop] at h
  | cons c rest ih =>
    intro k msgs code h
    unfold runShellLoop at h
    split at h
    · exact ih _ _ _ h
    · split at h
      · injection h with hm hc
        injection hc with hc
        constructor
        · intro _
          omega
        · left
          omega
      · split at h
        · exact ih _ _ _ h
        · split at h
          · exact ih _ _ _ h
          · split at h
            · injection h with hm hc
              injection hc with hc
              constructor
              · intro hall
                exact absurd (hall k) (by assumption)
              · right
                exact ⟨hc.symm, Or.inl hm.symm⟩
            · injection h with hm hc
              injection hc with hc
              constructor
              · intro hall
                exact absurd (hall k) (by assumption)
              · right
                exact ⟨hc.symm, Or.inr hm.symm⟩

theorem c7_amended_witness :
    runShellLoop (fun _ => true) [["exit"]] 0 = (([] : List String), some 0) ∧
    (((∀ j, (fun _ => true : Nat → Bool) j = true) → (0 : Nat) = 0) ∧
      ((0 : Nat) = 0 ∨ ((0 : Nat) = 1 ∧
        (([] : List String) = ["Major problem creating background child!\n"] ∨
          ([] : List String) = ["Major problem creating child!\n"])))) :=
  ⟨by decide, c7_amended (fun _ => true) [["exit"]] 0 [] 0 (by decide)⟩
